import Mathlib

/-!
Formal model of the NEWTEXTGENIUS score-extraction and multi-phase
evaluation orchestration pipeline.

The definitions below are shallow embeddings of the TypeScript sources:

* `extractScore` / `extractScoreCore`  — `server/services/llm-clients-new.ts`,
  `LLMClients.extractScore` (lines 236-257): regex-based labeled-line
  extraction (`/OVERALL\s+SCORE[:\s]+(\d+)/i` first match, then
  `/Score[:\s]+(\d+)/gi` last match, then the fallback 70 with a
  `console.warn` diagnostic, modelled as a Boolean flag).
* `deriveScoreFromAnswer` — `server/services/llm-clients.ts` (lines
  1605-1637): JSON strategy (with the JavaScript `||` coalescing over
  `parsed.score || parsed.Score || parsed.SCORE` and the `typeof`/range
  guard), then the `/Score:\s*(\d+)/i` first-match strategy with a range
  guard, then the fallback 70.  JavaScript's `JSON.parse` is modelled by
  the executable `jsonParse` below; `String.prototype.trim` by `jsTrim`.
* `buildProtocolPrompt`, `processDocumentWithProtocol` — the phase
  orchestrator of `routes.ts` (part_003 variant, lines 421-589) built on
  the prompt assembler of `llm-clients-new.ts` lines 92-137 (whose
  phase >= 2 structure coincides with the part_001 variant, lines 92-180).
  The provider is an oracle indexed by phase number; each provider call is
  recorded as a `PhaseCall` (phase, assembled prompt, response).
* `amalgamateChunkResults`, `calculateOverallScore`, `processAnalysisAsync`,
  `reportEndpoint`, and the `activeStreams` registry — `server/routes.ts`.

JavaScript `Math.round` on non-negative-or-negative rationals is modelled
by `jsRound` (floor of x + 1/2, which matches `Math.round` on all finite
inputs).  Regex matching is specialised to the three concrete patterns
used by the sources; for these patterns (whose character classes are
disjoint from the following literal/class) greedy backtracking semantics
coincide with the maximal-munch scanners defined here.
-/

/-! ## Character utilities -/

/-- ASCII digit test, the JavaScript regex class `\d`. -/
def isDigit (c : Char) : Bool := 48 ≤ c.toNat && c.toNat ≤ 57

/-- ASCII lower-casing, which is what the JavaScript `/i` regex flag amounts
to for the ASCII-only patterns used by the sources (the ECMAScript
canonicalisation never maps a non-ASCII character onto an ASCII one). -/
def lowerAscii (c : Char) : Char :=
  if 65 ≤ c.toNat && c.toNat ≤ 90 then Char.ofNat (c.toNat + 32) else c

/-- The JavaScript regex class `\s` (WhiteSpace plus LineTerminator):
TAB LF VT FF CR SP NBSP OGHAM U+2000..U+200A LS PS NNBSP MMSP IDEOGRAPHIC
ZWNBSP. -/
def jsWsChar (c : Char) : Bool :=
  let n := c.toNat
  (9 ≤ n && n ≤ 13) || n = 32 || n = 160 || n = 5760 ||
    (8192 ≤ n && n ≤ 8202) || n = 8232 || n = 8233 || n = 8239 ||
    n = 8287 || n = 12288 || n = 65279

/-- Right-trim helper for `jsTrim`. -/
def trimRight (l : List Char) : List Char :=
  (l.reverse.dropWhile jsWsChar).reverse

/-- JavaScript `String.prototype.trim`, which strips the `\s` class from
both ends. -/
def jsTrim (s : String) : String :=
  String.mk (trimRight (s.data.dropWhile jsWsChar))

/-- Decimal value of a digit run, the effect of `parseInt(digits, 10)`. -/
def digitsToNat (ds : List Char) : Nat :=
  ds.foldl (fun a c => 10 * a + (c.toNat - 48)) 0

/-- Boolean prefix test on character lists. -/
def listPre : List Char → List Char → Bool
  | [], _ => true
  | _ :: _, [] => false
  | a :: as, b :: bs => a == b && listPre as bs

/-- Boolean substring test on character lists (used to state that a prompt
embeds a score). -/
def isSubstr (needle : List Char) : List Char → Bool
  | [] => listPre needle []
  | c :: cs => listPre needle (c :: cs) || isSubstr needle cs

/-- JavaScript `String.prototype.startsWith` with a literal argument. -/
def startsWithLit (pre s : String) : Bool := listPre pre.data s.data

/-! ## Score extractor of `llm-clients-new.ts` (lines 236-257)

`extractScore` applies `/OVERALL\s+SCORE[:\s]+(\d+)/i` (first match), then
`/Score[:\s]+(\d+)/gi` (last match, then the first digit run of that
match, which is its capture), then returns the fallback 70 with a
`console.warn`.  For both patterns every quantified class is disjoint from
what follows it, so the greedy regex engine and the maximal-munch scanners
below find exactly the same matches; and since a `Score[:\s]+\d+` match
can never start strictly inside another one, the set of the global
regex's matches is exactly the set of positions where `matchPlainAt`
succeeds, so the last global match is the rightmost such position. -/

/-- Case-insensitive literal match: consumes `lit` (given lower-case)
from the head of the input, returning the rest. -/
def matchCI : List Char → List Char → Option (List Char)
  | [], s => some s
  | _ :: _, [] => none
  | l :: ls, c :: cs => if lowerAscii c = l then matchCI ls cs else none

/-- One-or-more characters of a class, maximal munch; returns the rest. -/
def many1Class (p : Char → Bool) : List Char → Option (List Char)
  | [] => none
  | c :: cs => if p c then some (cs.dropWhile p) else none

/-- Attempt `OVERALL\s+SCORE[:\s]+(\d+)` at the current position,
returning the digit capture. -/
def matchOverallAt (s : List Char) : Option (List Char) :=
  match matchCI "overall".data s with
  | none => none
  | some s1 =>
    match many1Class jsWsChar s1 with
    | none => none
    | some s2 =>
      match matchCI "score".data s2 with
      | none => none
      | some s3 =>
        match many1Class (fun c => c = ':' || jsWsChar c) s3 with
        | none => none
        | some s4 =>
          match s4 with
          | [] => none
          | c :: cs => if isDigit c then some (c :: cs.takeWhile isDigit) else none

/-- First (leftmost) match of the `OVERALL SCORE` pattern, as an integer. -/
def firstOverall : List Char → Option Nat
  | [] => (matchOverallAt []).map digitsToNat
  | c :: cs =>
    match matchOverallAt (c :: cs) with
    | some ds => some (digitsToNat ds)
    | none => firstOverall cs

/-- Attempt `Score[:\s]+(\d+)` at the current position, returning the digit
capture. -/
def matchPlainAt (s : List Char) : Option (List Char) :=
  match matchCI "score".data s with
  | none => none
  | some s1 =>
    match many1Class (fun c => c = ':' || jsWsChar c) s1 with
    | none => none
    | some s2 =>
      match s2 with
      | [] => none
      | c :: cs => if isDigit c then some (c :: cs.takeWhile isDigit) else none

/-- Last (rightmost) match of the global `Score:` pattern, as an integer. -/
def lastPlain : List Char → Option Nat
  | [] => (matchPlainAt []).map digitsToNat
  | c :: cs =>
    match lastPlain cs with
    | some n => some n
    | none => (matchPlainAt (c :: cs)).map digitsToNat

/-- The function `LLMClients.extractScore` of `llm-clients-new.ts`, paired with a flag
recording whether the `console.warn` fallback diagnostic fired. -/
def extractScoreCore (text : String) : Nat × Bool :=
  match firstOverall text.data with
  | some n => (n, false)
  | none =>
    match lastPlain text.data with
    | some n => (n, false)
    | none => (70, true)

/-- The function `LLMClients.extractScore` of `llm-clients-new.ts` (lines 236-257). -/
def extractScore (text : String) : Nat := (extractScoreCore text).1

/-- The `LLMResponse` interface of `llm-clients-new.ts`. -/
structure LLMResponse where
  score : Nat
  explanation : String
  quotes : List String
  deriving DecidableEq

/-- The response assembled by each `call*Stream` method of
`llm-clients-new.ts`: `{ score: extractScore(fullText), explanation:
fullText, quotes: [] }`. -/
def streamResponse (fullText : String) : LLMResponse :=
  { score := extractScore fullText, explanation := fullText, quotes := [] }

/-! ## JSON values and `JSON.parse`, for `deriveScoreFromAnswer`

`jsonParse` is an executable model of JavaScript's `JSON.parse`: the JSON
grammar with the four JSON whitespace characters, strings with the eight
escapes plus `\uXXXX`, numbers with optional sign/fraction/exponent (and
the no-leading-zero rule), arrays and objects.  Numbers are represented
exactly as rationals.  Recursion into nested containers is bounded by a
fuel argument; one fuel unit is consumed per container level and per
member/element step, and since each such step consumes at least one input
character, the initial fuel `length + 1` can never run out on an input
the grammar accepts. -/

inductive Json where
  | null
  | bool (b : Bool)
  | num (q : ℚ)
  | str (s : String)
  | arr (elems : List Json)
  | obj (fields : List (String × Json))

/-- JSON whitespace (space, tab, line feed, carriage return). -/
def jsonWs (c : Char) : Bool := c == ' ' || c == '\t' || c == '\n' || c == '\r'

/-- Drop leading JSON whitespace. -/
def skipJsonWs (s : List Char) : List Char := s.dropWhile jsonWs

/-- Hexadecimal digit value, for `\uXXXX` escapes. -/
def hexVal (c : Char) : Option Nat :=
  if 48 ≤ c.toNat && c.toNat ≤ 57 then some (c.toNat - 48)
  else if 97 ≤ c.toNat && c.toNat ≤ 102 then some (c.toNat - 87)
  else if 65 ≤ c.toNat && c.toNat ≤ 70 then some (c.toNat - 55)
  else none

/-- Body of a JSON string literal after the opening quote: `acc` holds the
characters read so far, reversed.  Control characters below 0x20 must be
escaped; the eight short escapes and `\uXXXX` are recognised. -/
def parseStringBody : List Char → List Char → Option (String × List Char)
  | _, [] => none
  | acc, c :: rest =>
    if c = '"' then some (String.mk acc.reverse, rest)
    else if c = '\\' then
      match rest with
      | [] => none
      | e :: rest' =>
        if e = '"' ∨ e = '\\' ∨ e = '/' then parseStringBody (e :: acc) rest'
        else if e = 'b' then parseStringBody ('\x08' :: acc) rest'
        else if e = 'f' then parseStringBody ('\x0c' :: acc) rest'
        else if e = 'n' then parseStringBody ('\n' :: acc) rest'
        else if e = 'r' then parseStringBody ('\x0d' :: acc) rest'
        else if e = 't' then parseStringBody ('\t' :: acc) rest'
        else if e = 'u' then
          match rest' with
          | h1 :: h2 :: h3 :: h4 :: rest2 =>
            match hexVal h1, hexVal h2, hexVal h3, hexVal h4 with
            | some a, some b, some c2, some d =>
              parseStringBody (Char.ofNat (((a * 16 + b) * 16 + c2) * 16 + d) :: acc) rest2
            | _, _, _, _ => none
          | _ => none
        else none
    else if 32 ≤ c.toNat then parseStringBody (c :: acc) rest
    else none

/-- Assemble a JSON number from sign, integer part, fraction digits and
exponent.  When there is no fraction and no exponent the value is the
plain integer cast. -/
def mkJsonNum (neg : Bool) (ip : Nat) (fds : List Char) (ex : Int) : ℚ :=
  if fds = [] ∧ ex = 0 then (if neg then -(ip : ℚ) else (ip : ℚ))
  else
    let base : ℚ := (ip : ℚ) + (digitsToNat fds : ℚ) / ((10 : ℚ) ^ fds.length)
    let v := base * (10 : ℚ) ^ ex
    if neg then -v else v

/-- Optional exponent part of a JSON number. -/
def parseExpPart (neg : Bool) (ip : Nat) (fds : List Char) (s : List Char) :
    Option (ℚ × List Char) :=
  match s with
  | c :: rest =>
    if c = 'e' ∨ c = 'E' then
      let (esign, rest1) : Int × List Char :=
        match rest with
        | '+' :: r => (1, r)
        | '-' :: r => (-1, r)
        | r => (1, r)
      match rest1 with
      | d :: ds =>
        if isDigit d then
          some (mkJsonNum neg ip fds (esign * (digitsToNat (d :: ds.takeWhile isDigit) : Int)),
                ds.dropWhile isDigit)
        else none
      | [] => none
    else some (mkJsonNum neg ip fds 0, s)
  | [] => some (mkJsonNum neg ip fds 0, [])

/-- Optional fraction part of a JSON number, then the exponent part. -/
def parseFracPart (neg : Bool) (ip : Nat) (s : List Char) : Option (ℚ × List Char) :=
  match s with
  | '.' :: rest =>
    match rest with
    | d :: ds =>
      if isDigit d then parseExpPart neg ip (d :: ds.takeWhile isDigit) (ds.dropWhile isDigit)
      else none
    | [] => none
  | _ => parseExpPart neg ip [] s

/-- A JSON number: optional minus, integer part obeying the
no-leading-zero rule, optional fraction, optional exponent. -/
def parseJsonNumber (s : List Char) : Option (ℚ × List Char) :=
  match s with
  | [] => none
  | c0 :: rest0 =>
    if c0 = '-' then
      match rest0 with
      | [] => none
      | c :: cs =>
        if c = '0' then parseFracPart true 0 cs
        else if isDigit c then
          parseFracPart true (digitsToNat (c :: cs.takeWhile isDigit)) (cs.dropWhile isDigit)
        else none
    else
      if c0 = '0' then parseFracPart false 0 rest0
      else if isDigit c0 then
        parseFracPart false (digitsToNat (c0 :: rest0.takeWhile isDigit))
          (rest0.dropWhile isDigit)
      else none

/-- Strip an exact literal from the head of the input, returning the
rest. -/
def stripLit : List Char → List Char → Option (List Char)
  | [], s => some s
  | _ :: _, [] => none
  | k :: ks, c :: cs => if c = k then stripLit ks cs else none

mutual

/-- A JSON value.  One unit of fuel is consumed per value; since every
value consumes at least one input character, the initial fuel
`length + 1` never runs out on an input the grammar accepts. -/
def parseJsonValue : Nat → List Char → Option (Json × List Char)
  | 0, _ => none
  | fuel + 1, s =>
    match s with
    | [] => none
    | c :: rest =>
      if c = '"' then (parseStringBody [] rest).map (fun p => (Json.str p.1, p.2))
      else if c = '{' then
        match skipJsonWs rest with
        | '}' :: rest' => some (Json.obj [], rest')
        | r => (parseJsonMembers fuel r).map (fun p => (Json.obj p.1, p.2))
      else if c = '[' then
        match skipJsonWs rest with
        | ']' :: rest' => some (Json.arr [], rest')
        | r => (parseJsonElems fuel r).map (fun p => (Json.arr p.1, p.2))
      else if c = 'n' then (stripLit "ull".data rest).map (fun r => (Json.null, r))
      else if c = 't' then (stripLit "rue".data rest).map (fun r => (Json.bool true, r))
      else if c = 'f' then (stripLit "alse".data rest).map (fun r => (Json.bool false, r))
      else if c = '-' ∨ isDigit c then
        (parseJsonNumber (c :: rest)).map (fun p => (Json.num p.1, p.2))
      else none

/-- The members of a JSON object, positioned at a key (leading whitespace
already skipped). -/
def parseJsonMembers : Nat → List Char → Option (List (String × Json) × List Char)
  | 0, _ => none
  | f + 1, s =>
    match s with
    | '"' :: rest =>
      match parseStringBody [] rest with
      | some (key, r1) =>
        match skipJsonWs r1 with
        | ':' :: r2 =>
          match parseJsonValue f (skipJsonWs r2) with
          | some (v, r3) =>
            match skipJsonWs r3 with
            | ',' :: r4 =>
              match parseJsonMembers f (skipJsonWs r4) with
              | some (fields, r5) => some ((key, v) :: fields, r5)
              | none => none
            | '}' :: r4 => some ([(key, v)], r4)
            | _ => none
          | none => none
        | _ => none
      | none => none
    | _ => none

/-- The elements of a JSON array, positioned at a value. -/
def parseJsonElems : Nat → List Char → Option (List Json × List Char)
  | 0, _ => none
  | f + 1, s =>
    match parseJsonValue f s with
    | some (v, r1) =>
      match skipJsonWs r1 with
      | ',' :: r2 =>
        match parseJsonElems f (skipJsonWs r2) with
        | some (vs, r3) => some (v :: vs, r3)
        | none => none
      | ']' :: r2 => some ([v], r2)
      | _ => none
    | none => none

end

/-- JavaScript `JSON.parse`: parse one value and require only whitespace after it. -/
def jsonParse (s : String) : Option Json :=
  match parseJsonValue (s.data.length + 1) (skipJsonWs s.data) with
  | some (v, rest) => if skipJsonWs rest = [] then some v else none
  | none => none

/-! ## `deriveScoreFromAnswer` of `llm-clients.ts` (lines 1605-1637) -/

/-- Property lookup on the object produced by `JSON.parse`; with duplicate
keys the later one wins, as in JavaScript. -/
def getMember (fields : List (String × Json)) (key : String) : Option Json :=
  fields.foldl (fun acc kv => if kv.1 = key then some kv.2 else acc) none

/-- JavaScript property access `parsed.key`: `undefined` (here `none`)
unless the value is an object with that key. -/
def getProp (v : Json) (key : String) : Option Json :=
  match v with
  | Json.obj fields => getMember fields key
  | _ => none

/-- JavaScript truthiness of a possibly-undefined JSON value. -/
def jsTruthy : Option Json → Bool
  | none => false
  | some Json.null => false
  | some (Json.bool b) => b
  | some (Json.num q) => decide (q ≠ 0)
  | some (Json.str s) => decide (s ≠ "")
  | some (Json.arr _) => true
  | some (Json.obj _) => true

/-- The JavaScript expression `parsed.score || parsed.Score || parsed.SCORE`:
the first truthy operand, or the last operand if none is truthy. -/
def jsScoreField (parsed : Json) : Option Json :=
  let a := getProp parsed "score"
  let b := getProp parsed "Score"
  let c := getProp parsed "SCORE"
  if jsTruthy a then a else if jsTruthy b then b else c

/-- Head character of a string, for `trimmed.startsWith('{')`. -/
def strHead (s : String) : Option Char := s.data.head?

/-- Strategy 1 of `deriveScoreFromAnswer`: if the trimmed text starts with
`{` or `[`, `JSON.parse` it, take `parsed.score || parsed.Score ||
parsed.SCORE`, and accept it when it is a number in [0, 100]. -/
def scoreFromJson (trimmed : String) : Option ℚ :=
  if strHead trimmed = some '{' ∨ strHead trimmed = some '[' then
    match jsonParse trimmed with
    | some parsed =>
      match jsScoreField parsed with
      | some (Json.num score) => if 0 ≤ score ∧ score ≤ 100 then some score else none
      | _ => none
    | none => none
  else none

/-- Attempt `Score:\s*(\d+)` at the current position (case-insensitive,
colon mandatory), returning the digit capture. -/
def matchColonAt (s : List Char) : Option (List Char) :=
  match matchCI "score".data s with
  | none => none
  | some s1 =>
    match s1 with
    | ':' :: rest =>
      match rest.dropWhile jsWsChar with
      | [] => none
      | c :: cs => if isDigit c then some (c :: cs.takeWhile isDigit) else none
    | _ => none

/-- First (leftmost) match of the `Score:` pattern of strategy 2, as an
integer. -/
def firstColonScore : List Char → Option Nat
  | [] => (matchColonAt []).map digitsToNat
  | c :: cs =>
    match matchColonAt (c :: cs) with
    | some ds => some (digitsToNat ds)
    | none => firstColonScore cs

/-- The function `LLMClients.deriveScoreFromAnswer` of `llm-clients.ts` (lines
1605-1637): trim, then the JSON strategy, then the labeled-line strategy
with its own [0, 100] guard, then the neutral fallback 70. -/
def deriveScoreFromAnswer (answer : String) : ℚ :=
  let trimmed := jsTrim answer
  match scoreFromJson trimmed with
  | some score => score
  | none =>
    match firstColonScore trimmed.data with
    | some n => if 0 ≤ n ∧ n ≤ 100 then (n : ℚ) else 70
    | none => 70

/-- The `LLMResponse` value assembled by the streaming callers in
`llm-clients.ts` (lines 1596-1602): `{ score, explanation:
fullText.trim(), quotes: [] }`. -/
structure LLMResponseQ where
  score : ℚ
  explanation : String
  quotes : List String

/-- The response assembled around `deriveScoreFromAnswer`. -/
def deriveResponse (fullText : String) : LLMResponseQ :=
  { score := deriveScoreFromAnswer fullText, explanation := jsTrim fullText, quotes := [] }

/-! ## Protocol configuration and prompt assembler

The protocol texts live in `server/services/protocols.ts`, which is not
part of the available sources; only its import signature is visible
(`getProtocolQuestions(type)`, `getScoringInstructions()`,
`getCognitiveMetapoints()`, `getPsychologicalInstructions()`,
`getPsychopathologicalInstructions()`, `getPhase2Pushback(score, type)`,
`getPhase3WalmartMetric(score, type)`, `getPhase4Validation(type)`,
`PHONY_PARADIGM`).  The bodies below are modelled from the spec, which
treats the rubric wording as opaque configuration and says of phases >= 2
that the prompt "embeds the prior phase's score and an instruction to
re-justify or revise it".  Note from the signatures alone that
`getPhase4Validation` receives no score. -/

/-- The `'cognitive' | 'psychological' | 'psychopathological'` assessment
types of the schema. -/
inductive AssessmentType where
  | cognitive
  | psychological
  | psychopathological
  deriving DecidableEq

/-- The `'normal' | 'comprehensive'` assessment modes of the schema. -/
inductive AssessmentMode where
  | normal
  | comprehensive
  deriving DecidableEq

/-- Display name of an assessment type, for prompt text. -/
def typeName : AssessmentType → String
  | AssessmentType.cognitive => "cognitive"
  | AssessmentType.psychological => "psychological"
  | AssessmentType.psychopathological => "psychopathological"

/-- Modelled from the spec: `getProtocolQuestions` of the missing
`protocols.ts`; the rubric question sets are opaque configuration, so
three fixed questions per assessment type stand in for the real lists. -/
def getProtocolQuestions : AssessmentType → List String
  | AssessmentType.cognitive =>
      ["Is the reasoning genuinely insightful?",
       "Is the argument original rather than derivative?",
       "Is the argument cogent?"]
  | AssessmentType.psychological =>
      ["Is the outlook stable?",
       "Is affect well regulated?",
       "Is the self-image coherent?"]
  | AssessmentType.psychopathological =>
      ["Are there signs of thought disturbance?",
       "Is there indication of risk?",
       "Is reality testing intact?"]

/-- Modelled from the spec: `getScoringInstructions` of the missing
`protocols.ts` (opaque rubric configuration text). -/
def getScoringInstructions : String :=
  "SCORING INSTRUCTIONS: a score is a percentile against the general population.\n"

/-- Modelled from the spec: `getCognitiveMetapoints` of the missing
`protocols.ts` (opaque rubric configuration text). -/
def getCognitiveMetapoints : String :=
  "COGNITIVE METAPOINTS: weigh insight over polish.\n"

/-- Modelled from the spec: `getPsychologicalInstructions` of the missing
`protocols.ts` (opaque rubric configuration text). -/
def getPsychologicalInstructions : String :=
  "PSYCHOLOGICAL INSTRUCTIONS: assess the author, not the prose.\n"

/-- Modelled from the spec: `getPsychopathologicalInstructions` of the
missing `protocols.ts` (opaque rubric configuration text). -/
def getPsychopathologicalInstructions : String :=
  "PSYCHOPATHOLOGICAL INSTRUCTIONS: assess clinically relevant signs.\n"

/-- Modelled from the spec: the `PHONY_PARADIGM` calibration text of the
missing `protocols.ts`. -/
def PHONY_PARADIGM : String :=
  "A paradigm of jargon-heavy prose that sounds smart but develops no idea."

/-- Modelled from the spec: `getPhase2Pushback(previousScore, type)` of
the missing `protocols.ts`; per the spec the phase-2 prompt embeds the
prior phase's score and an instruction to re-justify or revise it. -/
def getPhase2Pushback (previousScore : Nat) (assessmentType : AssessmentType) : String :=
  "PHASE 2 PUSHBACK: Your previous overall score was " ++ Nat.repr previousScore ++
    "/100. Defend or revise that score for this " ++ typeName assessmentType ++
    " assessment, answering the strongest objection to it."

/-- Modelled from the spec: `getPhase3WalmartMetric(previousScore, type)`
of the missing `protocols.ts`; per the spec the phase-3 prompt embeds the
prior phase's score and an instruction to re-justify or revise it. -/
def getPhase3WalmartMetric (previousScore : Nat) (assessmentType : AssessmentType) : String :=
  "PHASE 3 WALMART METRIC: You scored this text " ++ Nat.repr previousScore ++
    "/100. Re-state what fraction of ordinary people could produce such a text, and revise the score if that fraction disagrees with it. This is a " ++
    typeName assessmentType ++ " assessment."

/-- Modelled from the spec: `getPhase4Validation(type)` of the missing
`protocols.ts`.  Its source signature takes only the assessment type, so
the phase-4 prompt cannot embed any prior score. -/
def getPhase4Validation (assessmentType : AssessmentType) : String :=
  "PHASE FOUR FINAL VALIDATION: State your final overall score for this " ++
    typeName assessmentType ++ " assessment and give your summary."

/-- The numbered question block emitted by `questions.forEach` in
`buildProtocolPrompt`: index plus 1, a dot and a space, the question
text, and two newlines, for each question in order. -/
def numberedQuestionsFrom : Nat → List String → String
  | _, [] => ""
  | i, q :: rest =>
    Nat.repr (i + 1) ++ ". " ++ q ++ "\n\n" ++ numberedQuestionsFrom (i + 1) rest

/-- The method `LLMClients.buildProtocolPrompt` of `llm-clients-new.ts` (lines
92-137; the phase >= 2 branching coincides with the part_001 variant):
a `TEXT TO ANALYZE` header, then for phase 1 the full question list,
assessment-specific instructions and the answer-format block, for phases
2 and 3 (when a previous score was passed) the corresponding pushback
text, and for phase 4 the validation text.  `assessmentMode` is received
but never used, as in the source. -/
def buildProtocolPrompt (text : String) (assessmentType : AssessmentType)
    (assessmentMode : AssessmentMode) (phase : Nat) (previousScore : Option Nat) : String :=
  let _ := assessmentMode
  let questions := getProtocolQuestions assessmentType
  let base := "TEXT TO ANALYZE:\n" ++ text ++ "\n\n"
  match phase, previousScore with
  | 1, _ =>
    let withQ := base ++ "QUESTIONS TO ANSWER:\n\n" ++ numberedQuestionsFrom 0 questions
    let withInstr := withQ ++
      (match assessmentType with
       | AssessmentType.cognitive =>
           getScoringInstructions ++ getCognitiveMetapoints ++
             "\n\nPHONY PARADIGM (must score ≤65):\n" ++ PHONY_PARADIGM ++ "\n\n"
       | AssessmentType.psychological => getPsychologicalInstructions
       | AssessmentType.psychopathological => getPsychopathologicalInstructions)
    withInstr ++
      "\nANSWER FORMAT:\nFor each question, provide:\n- Score: [0-100]\n- Explanation: [Your answer]\n\nThen provide OVERALL SCORE and SUMMARY."
  | 2, some s => base ++ getPhase2Pushback s assessmentType
  | 3, some s => base ++ getPhase3WalmartMetric s assessmentType
  | 4, _ => base ++ getPhase4Validation assessmentType
  | _, _ => base

/-! ## Phase orchestrator of part_003 (`processDocumentWithProtocol`,
lines 421-589)

The provider is abstracted as an oracle from the phase number (the index
of the provider call in the ladder) to the call's outcome: the
`LLMResponse` obtained from the stream on success, or the thrown error
message.  A thrown error propagates out of `processDocumentWithProtocol`,
which has no try/catch, exactly as `Except.error` propagates here.  Each
call is recorded as a `PhaseCall`; `finalExplanation` in comprehensive
mode is the accumulated transcript with the source's phase-boundary
markers (each phase's stream taken as a single chunk). -/

/-- One provider call of the ladder: the phase number, the prompt
assembled for it, and the provider's response. -/
structure PhaseCall where
  phase : Nat
  prompt : String
  response : LLMResponse
  deriving DecidableEq

/-- The outcome of one document's ladder: the final score and explanation
of the single returned result object, plus the recorded calls. -/
structure DocRun where
  finalScore : Nat
  finalExplanation : String
  calls : List PhaseCall
  deriving DecidableEq

/-- The function `processDocumentWithProtocol` of part_003 (lines 421-589): phase 1
always runs; when the mode is `comprehensive` and the phase-1 score is
below 95, phases 2, 3 and 4 run unconditionally in order, phase 2
receiving the phase-1 score, phase 3 the phase-2 score, and phase 4 no
score at all; the final score is then the phase-4 score.  Otherwise the
phase-1 score and explanation are final. -/
def processDocumentWithProtocol (oracle : Nat → Except String LLMResponse)
    (text : String) (assessmentType : AssessmentType) (assessmentMode : AssessmentMode) :
    Except String DocRun :=
  let p1 := buildProtocolPrompt text assessmentType assessmentMode 1 none
  match oracle 1 with
  | Except.error e => Except.error e
  | Except.ok phase1Result =>
    if assessmentMode = AssessmentMode.comprehensive ∧ phase1Result.score < 95 then
      let p2 := buildProtocolPrompt text assessmentType assessmentMode 2 (some phase1Result.score)
      match oracle 2 with
      | Except.error e => Except.error e
      | Except.ok phase2Result =>
        let p3 := buildProtocolPrompt text assessmentType assessmentMode 3 (some phase2Result.score)
        match oracle 3 with
        | Except.error e => Except.error e
        | Except.ok phase3Result =>
          let p4 := buildProtocolPrompt text assessmentType assessmentMode 4 none
          match oracle 4 with
          | Except.error e => Except.error e
          | Except.ok phase4Result =>
            Except.ok
              { finalScore := phase4Result.score,
                finalExplanation :=
                  phase1Result.explanation ++
                    "\n\n--- PHASE 2: PUSHBACK ---\n\n" ++ phase2Result.explanation ++
                    "\n\n--- PHASE 3: WALMART METRIC ---\n\n" ++ phase3Result.explanation ++
                    "\n\n--- PHASE 4: FINAL VALIDATION ---\n\n" ++ phase4Result.explanation,
                calls := [⟨1, p1, phase1Result⟩, ⟨2, p2, phase2Result⟩,
                          ⟨3, p3, phase3Result⟩, ⟨4, p4, phase4Result⟩] }
    else
      Except.ok { finalScore := phase1Result.score,
                  finalExplanation := phase1Result.explanation,
                  calls := [⟨1, p1, phase1Result⟩] }

/-! ## Aggregation and pipeline of `server/routes.ts` -/

/-- JavaScript `Math.round` on a finite rational: floor of x + 1/2
(halves round toward positive infinity). -/
def jsRound (q : ℚ) : Int := ⌊q + 1 / 2⌋

/-- One chunk's result as pushed into `chunkResults` in `processDocument`
of `routes.ts`: the original chunk index and the provider result (score,
explanation, quotes), or the catch-branch record `{ score: 0,
explanation: "Error: ...", quotes: [] }`. -/
structure ChunkResult where
  chunkIndex : Nat
  score : ℚ
  explanation : String
  quotes : List String
  deriving DecidableEq

/-- One amalgamated per-question result. -/
structure QuestionResult where
  question : String
  score : Int
  explanation : String
  quotes : List String
  deriving DecidableEq

/-- The function `amalgamateChunkResults` of `routes.ts` (lines 577-604): the average
score is `Math.round` of the mean over the results with `score > 0` (or 0
if there are none); the combined explanation joins with `"\n\n"` the
explanations that are non-empty and do not start with `"Error:"` (or a
fixed placeholder if none remain); the quotes are the concatenation of
all non-blank quotes. -/
def amalgamateChunkResults (question : String) (chunkResults : List ChunkResult) :
    QuestionResult :=
  let validResults := chunkResults.filter (fun r => 0 < r.score)
  let averageScore : Int :=
    if 0 < validResults.length then
      jsRound ((validResults.map ChunkResult.score).sum / (validResults.length : ℚ))
    else 0
  let explanations :=
    (chunkResults.filter
        (fun r => r.explanation ≠ "" ∧ ¬ startsWithLit "Error:" r.explanation)).map
      ChunkResult.explanation
  let combinedExplanation :=
    if 0 < explanations.length then String.intercalate "\n\n" explanations
    else "Unable to generate explanation due to processing errors."
  let allQuotes :=
    (chunkResults.foldr (fun r acc => r.quotes ++ acc) []).filter
      (fun q => q ≠ "" ∧ jsTrim q ≠ "")
  { question := question, score := averageScore, explanation := combinedExplanation,
    quotes := allQuotes }

/-- The function `calculateOverallScore` of `routes.ts` (lines 676-685) and part_003
(lines 898-907): 0 whenever document-2 results are present (dual mode),
otherwise `Math.round` of the mean of the question scores. -/
def calculateOverallScore (doc1Results : List QuestionResult)
    (doc2Results : Option (List QuestionResult)) : Int :=
  match doc2Results with
  | some _ => 0
  | none =>
    jsRound (((doc1Results.map QuestionResult.score).sum : ℚ) / (doc1Results.length : ℚ))

/-- The jsonb payload handed to `storage.updateAnalysisResults`: either
`{ results, document2Results, comparisonResults }` on success or
`{ error }` on failure (comparison results omitted here; no claim
inspects them). -/
structure ResultsRecord where
  results : Option (List QuestionResult)
  document2Results : Option (List QuestionResult)
  error : Option String
  deriving DecidableEq

/-- The analysis row as updated by `storage.updateAnalysisResults`
(schema: `results` jsonb, `overall_score` integer, `processing_time`
integer). -/
structure StoredAnalysis where
  results : Option ResultsRecord
  overallScore : Option Int
  processingTime : Option Nat
  deriving DecidableEq

/-- What the try block of `processAnalysisAsync` produces when no
exception escapes: document-1 results and, in dual mode, document-2
results. -/
structure PipelineOutput where
  doc1 : List QuestionResult
  doc2 : Option (List QuestionResult)
  deriving DecidableEq

/-- The function `processAnalysisAsync` of `routes.ts` (lines 257-372) and part_003
(lines 311-417), as a function of the try-block outcome: on success the
results and `calculateOverallScore` are stored; on any caught error the
record `{ error }` is stored with overall score 0. -/
def processAnalysisAsync (pipeline : Except String PipelineOutput) (elapsed : Nat) :
    StoredAnalysis :=
  match pipeline with
  | Except.ok out =>
    { results := some { results := some out.doc1, document2Results := out.doc2, error := none },
      overallScore := some (calculateOverallScore out.doc1 out.doc2),
      processingTime := some elapsed }
  | Except.error msg =>
    { results := some { results := none, document2Results := none, error := some msg },
      overallScore := some 0,
      processingTime := some elapsed }

/-- JavaScript truthiness of the stored `results` jsonb: any object is
truthy, absent/null is falsy. -/
def truthyResults : Option ResultsRecord → Bool
  | none => false
  | some _ => true

/-- JavaScript truthiness of the stored `overallScore`: absent/null and 0
are falsy. -/
def truthyScore : Option Int → Bool
  | none => false
  | some z => decide (z ≠ 0)

/-- Outcome of the report endpoint. -/
inductive ReportOutcome where
  | notFound
  | notComplete
  | report (text : String)
  deriving DecidableEq

/-- A few header lines of `generateTextReport` of `routes.ts` (the full
report body is presentation only and no claim inspects it). -/
def generateTextReport (analysis : StoredAnalysis) : String :=
  "TEXT GENIUS ANALYSIS REPORT\n=====================================\n\nOverall Score: " ++
    (match analysis.overallScore with
     | some z => Int.repr z
     | none => "null") ++ "/100\n"

/-- The `GET /api/analysis/:id/report` handler of `routes.ts` (lines
214-237): 404 when the analysis is missing, and `"Analysis not yet
complete"` when `!analysis.results || !analysis.overallScore`. -/
def reportEndpoint (stored : Option StoredAnalysis) : ReportOutcome :=
  match stored with
  | none => ReportOutcome.notFound
  | some analysis =>
    if ¬ truthyResults analysis.results ∨ ¬ truthyScore analysis.overallScore then
      ReportOutcome.notComplete
    else ReportOutcome.report (generateTextReport analysis)

/-! ## The `activeStreams` registry of `server/routes.ts` (lines 158-161,
243-255)

`activeStreams` is a JavaScript `Map` from analysis id to a single
`sendEvent` callback; callbacks are modelled by numeric identifiers.
`Map.set` replaces the value of an existing key in place and otherwise
appends; `Map.get` returns the entry's value.  `sendProgressUpdate`
returns the list of callbacks the event is delivered to. -/

/-- The `Map<string, (data: any) => boolean>` backing `activeStreams`. -/
def StreamRegistry : Type := List (String × Nat)

/-- JavaScript `Map.set`. -/
def mapSet (m : StreamRegistry) (k : String) (v : Nat) : StreamRegistry :=
  match m with
  | [] => [(k, v)]
  | (k', v') :: rest => if k' = k then (k, v) :: rest else (k', v') :: mapSet rest k v

/-- JavaScript `Map.get`. -/
def mapGet (m : StreamRegistry) (k : String) : Option Nat :=
  match m with
  | [] => none
  | (k', v) :: rest => if k' = k then some v else mapGet rest k

/-- The registration `activeStreams.set(analysisId, sendEvent)` performed
by the stream route (routes.ts line 161). -/
def subscribeStream (m : StreamRegistry) (analysisId : String) (callback : Nat) :
    StreamRegistry :=
  mapSet m analysisId callback

/-- The function `sendProgressUpdate` (routes.ts lines 246-255): look up the single
registered callback for the id and deliver the event to it, or drop the
event. -/
def sendProgressUpdate (m : StreamRegistry) (analysisId : String) : List Nat :=
  match mapGet m analysisId with
  | some callback => [callback]
  | none => []

/-! ## Helper lemmas -/

theorem strData_append (a b : String) : (a ++ b).data = a.data ++ b.data := by
  cases a; cases b; rfl

theorem listPre_self_append (n b : List Char) : listPre n (n ++ b) = true := by
  induction n with
  | nil => rfl
  | cons c cs ih => simp [listPre, ih]

theorem isSubstr_here (n h : List Char) (hp : listPre n h = true) : isSubstr n h = true := by
  cases h with
  | nil => simpa [isSubstr] using hp
  | cons c cs => simp [isSubstr, hp]

theorem isSubstr_append_left (a : List Char) {n h : List Char}
    (hs : isSubstr n h = true) : isSubstr n (a ++ h) = true := by
  induction a with
  | nil => simpa using hs
  | cons c cs ih => simp [isSubstr, ih]

theorem isSubstr_mid (a n b : List Char) : isSubstr n (a ++ (n ++ b)) = true :=
  isSubstr_append_left a (isSubstr_here n (n ++ b) (listPre_self_append n b))

theorem mapGet_mapSet_self (m : StreamRegistry) (k : String) (v : Nat) :
    mapGet (mapSet m k v) k = some v := by
  induction m with
  | nil => simp [mapSet, mapGet]
  | cons kv rest ih =>
    obtain ⟨k', v'⟩ := kv
    by_cases h : k' = k
    · simp [mapSet, mapGet, h]
    · simp [mapSet, mapGet, h, ih]

theorem mapGet_mapSet_other (m : StreamRegistry) {k k' : String} (v : Nat)
    (h : k' ≠ k) : mapGet (mapSet m k v) k' = mapGet m k' := by
  have h' : ¬ (k = k') := fun hh => h hh.symm
  induction m with
  | nil => simp [mapSet, mapGet, h']
  | cons kv rest ih =>
    obtain ⟨k0, v0⟩ := kv
    by_cases h0 : k0 = k
    · subst h0
      simp [mapSet, mapGet, h']
    · simp [mapSet, mapGet, h0, ih]

theorem scoreFromJson_bounds (t : String) (q : ℚ) (h : scoreFromJson t = some q) :
    0 ≤ q ∧ q ≤ 100 := by
  unfold scoreFromJson at h
  split at h
  · split at h
    · split at h
      · split at h
        · cases h
          assumption
        · cases h
      · cases h
    · cases h
  · cases h

/-! ## Claim theorems -/

/-- C1: The phase orchestrator always executes phase 1 exactly once per
document; it goes straight to Done with the phase-1 score when the
assessment mode is `normal` or when the phase-1 score is at least 95;
otherwise phases 2, 3 and 4 all execute unconditionally in order with no
further threshold checks, and the final score is the phase-4 score. -/
theorem c1_phase_orchestrator (oracle : Nat → Except String LLMResponse) (text : String)
    (ty : AssessmentType) (mode : AssessmentMode) (r1 : LLMResponse)
    (h1 : oracle 1 = Except.ok r1) :
    (∀ run, processDocumentWithProtocol oracle text ty mode = Except.ok run →
        (run.calls.filter (fun c => c.phase == 1)).length = 1)
    ∧ ((mode = AssessmentMode.normal ∨ 95 ≤ r1.score) →
        processDocumentWithProtocol oracle text ty mode =
          Except.ok { finalScore := r1.score, finalExplanation := r1.explanation,
                      calls := [⟨1, buildProtocolPrompt text ty mode 1 none, r1⟩] })
    ∧ (mode = AssessmentMode.comprehensive → r1.score < 95 →
        ∀ r2 r3 r4, oracle 2 = Except.ok r2 → oracle 3 = Except.ok r3 →
          oracle 4 = Except.ok r4 →
          ∃ run, processDocumentWithProtocol oracle text ty mode = Except.ok run ∧
            run.calls.map PhaseCall.phase = [1, 2, 3, 4] ∧ run.finalScore = r4.score) := by
  refine ⟨?_, ?_, ?_⟩
  · intro run hrun
    simp only [processDocumentWithProtocol, h1] at hrun
    by_cases hc : mode = AssessmentMode.comprehensive ∧ r1.score < 95
    · rw [if_pos hc] at hrun
      cases h2 : oracle 2 with
      | error e => rw [h2] at hrun; exact absurd hrun (by simp)
      | ok r2 =>
        rw [h2] at hrun
        cases h3 : oracle 3 with
        | error e => rw [h3] at hrun; exact absurd hrun (by simp)
        | ok r3 =>
          rw [h3] at hrun
          cases h4 : oracle 4 with
          | error e => rw [h4] at hrun; exact absurd hrun (by simp)
          | ok r4 =>
            rw [h4] at hrun
            injection hrun with h
            subst h
            rfl
    · rw [if_neg hc] at hrun
      injection hrun with h
      subst h
      rfl
  · intro hdone
    simp only [processDocumentWithProtocol, h1]
    rw [if_neg]
    rintro ⟨hm, hlt⟩
    rcases hdone with hn | hs
    · rw [hn] at hm
      cases hm
    · exact absurd hlt (not_lt.mpr hs)
  · intro hm hlt r2 r3 r4 h2 h3 h4
    subst hm
    simp only [processDocumentWithProtocol, h1, h2, h3, h4]
    rw [if_pos]
    · exact ⟨_, rfl, rfl, rfl⟩
    · first
      | exact hlt
      | exact ⟨by trivial, hlt⟩

/-- Oracle for the C1 witness: every phase succeeds with score 60. -/
def oracleW : Nat → Except String LLMResponse :=
  fun _ => Except.ok ⟨60, "resp", []⟩

/-- Witness for C1: a comprehensive run whose phase-1 score 60 is below
the threshold runs all four phases and ends with the phase-4 score. -/
theorem c1_phase_orchestrator_witness :
    ∃ run, processDocumentWithProtocol oracleW "doc" AssessmentType.cognitive
        AssessmentMode.comprehensive = Except.ok run ∧
      run.calls.map PhaseCall.phase = [1, 2, 3, 4] ∧ run.finalScore = 60 :=
  (c1_phase_orchestrator oracleW "doc" AssessmentType.cognitive AssessmentMode.comprehensive
      ⟨60, "resp", []⟩ rfl).2.2 rfl (by decide) ⟨60, "resp", []⟩ ⟨60, "resp", []⟩
    ⟨60, "resp", []⟩ rfl rfl rfl

/-- C3 counterexample: on `"OVERALL SCORE: 150"` the labeled-line
extractor of `llm-clients-new.ts` returns 150 itself, not a value clamped
into [0, 100]. -/
theorem c3_counterexample :
    extractScore "OVERALL SCORE: 150" = 150 ∧ ¬ extractScore "OVERALL SCORE: 150" ≤ 100 :=
  ⟨rfl, by decide⟩

/-- C3 amended: no extractor clamps to a boundary.  `deriveScoreFromAnswer`
always returns a value in [0, 100], but it does so by rejecting
out-of-range candidates and falling through (on `"Score: 150"` it returns
the fallback 70, not 100), while `extractScore` of `llm-clients-new.ts`
returns out-of-range labeled values unchanged. -/
theorem c3_amended :
    (∀ s, 0 ≤ deriveScoreFromAnswer s ∧ deriveScoreFromAnswer s ≤ 100)
    ∧ deriveScoreFromAnswer "Score: 150" = 70 := by
  constructor
  · intro s
    simp only [deriveScoreFromAnswer]
    cases hj : scoreFromJson (jsTrim s) with
    | some q =>
      exact scoreFromJson_bounds _ _ hj
    | none =>
      cases hc : firstColonScore (jsTrim s).data with
      | some n =>
        show 0 ≤ (if 0 ≤ n ∧ n ≤ 100 then (n : ℚ) else 70)
          ∧ (if 0 ≤ n ∧ n ≤ 100 then (n : ℚ) else 70) ≤ 100
        by_cases hn : 0 ≤ n ∧ n ≤ 100
        · rw [if_pos hn]
          exact ⟨Nat.cast_nonneg n, by exact_mod_cast hn.2⟩
        · rw [if_neg hn]
          norm_num
      | none =>
        show 0 ≤ (70 : ℚ) ∧ (70 : ℚ) ≤ 100
        norm_num
  · rfl

/-- C4 counterexample: with two `OVERALL SCORE` lines the extractor takes
the first occurrence (the regex has no global flag), not the last as the
claim states. -/
theorem c4_counterexample :
    extractScore "OVERALL SCORE: 50\nOVERALL SCORE: 91" = 50 ∧ (50 : Nat) ≠ 91 :=
  ⟨rfl, by decide⟩

/-- C4 amended: `OVERALL SCORE:` is preferred over a plain `Score:`; the
first occurrence of `OVERALL SCORE:` is taken, while for plain `Score:`
the last occurrence is taken; in particular the spec's multi-question
example still extracts 91. -/
theorem c4_amended :
    extractScore "Question 1: Score: 80\nQuestion 2: Score: 65\nOVERALL SCORE: 91\nSummary: ..." = 91
    ∧ extractScore "OVERALL SCORE: 40\nOVERALL SCORE: 90" = 40
    ∧ extractScore "Score: 80\nScore: 65" = 65 :=
  ⟨rfl, rfl, rfl⟩

/-- C5: when neither extraction strategy finds a numeric score, the
extractor returns the fixed sentinel 70, the response carries the raw
text as its explanation, and the `console.warn` diagnostic fires. -/
theorem c5_unparsable_fallback (s : String)
    (h1 : firstOverall s.data = none) (h2 : lastPlain s.data = none) :
    extractScoreCore s = (70, true)
    ∧ streamResponse s = { score := 70, explanation := s, quotes := [] } := by
  have hc : extractScoreCore s = (70, true) := by
    unfold extractScoreCore
    rw [h1, h2]
  refine ⟨hc, ?_⟩
  simp [streamResponse, extractScore, hc]

/-- The spec's unparsable example text. -/
def neutralText : String :=
  "This text is thoughtful and well organized with no explicit numeric rating."

/-- Witness for C5 at the spec's unparsable example. -/
theorem c5_unparsable_fallback_witness :
    extractScoreCore neutralText = (70, true)
    ∧ streamResponse neutralText = { score := 70, explanation := neutralText, quotes := [] } :=
  c5_unparsable_fallback neutralText rfl rfl

/-- C7: if a phase's provider call fails irrecoverably the failure
propagates out of the ladder (no later phase runs and no prior score is
substituted), and the catch branch of `processAnalysisAsync` stores the
sentinel overall score 0 together with the error message. -/
theorem c7_failure_semantics :
    (∀ msg elapsed, processAnalysisAsync (Except.error msg) elapsed =
        { results := some { results := none, document2Results := none, error := some msg },
          overallScore := some 0, processingTime := some elapsed })
    ∧ (∀ (oracle : Nat → Except String LLMResponse) text ty (r1 : LLMResponse) e,
        oracle 1 = Except.ok r1 → r1.score < 95 → oracle 2 = Except.error e →
        processDocumentWithProtocol oracle text ty AssessmentMode.comprehensive =
          Except.error e) := by
  refine ⟨fun msg elapsed => rfl, ?_⟩
  intro oracle text ty r1 e h1 hlt h2
  simp only [processDocumentWithProtocol, h1, h2]
  rw [if_pos]
  first
  | exact hlt
  | exact ⟨by trivial, hlt⟩

/-- Oracle for the C7 witness: phase 2 throws, the other phases succeed
with score 60. -/
def oracleF : Nat → Except String LLMResponse :=
  fun k => if k = 2 then Except.error "provider unavailable" else Except.ok ⟨60, "resp", []⟩

/-- Witness for C7: with a phase-2 failure the whole comprehensive ladder
yields that failure. -/
theorem c7_failure_semantics_witness :
    processDocumentWithProtocol oracleF "doc" AssessmentType.cognitive
        AssessmentMode.comprehensive = Except.error "provider unavailable" :=
  c7_failure_semantics.2 oracleF "doc" AssessmentType.cognitive ⟨60, "resp", []⟩
    "provider unavailable" rfl (by decide) rfl

/-- C8 counterexample: a failed segment's error text is dropped from the
combined explanation, not preserved in it as the claim states. -/
theorem c8_counterexample :
    (amalgamateChunkResults "Does the text show insight?"
        [⟨0, 80, "good reasoning", []⟩, ⟨1, 0, "Error: provider timeout", []⟩]).explanation
      = "good reasoning"
    ∧ isSubstr "Error: provider timeout".data
        (amalgamateChunkResults "Does the text show insight?"
          [⟨0, 80, "good reasoning", []⟩, ⟨1, 0, "Error: provider timeout", []⟩]).explanation.data
      = false
    ∧ (amalgamateChunkResults "Does the text show insight?"
        [⟨0, 80, "good reasoning", []⟩, ⟨1, 0, "Error: provider timeout", []⟩]).score = 80 := by
  refine ⟨rfl, rfl, ?_⟩
  norm_num [amalgamateChunkResults, jsRound, List.filter]

/-- C8 amended: the aggregated score is the rounded mean of the chunk
scores that are strictly positive (0 when there are none, which covers
every failed segment since failures are recorded with score 0); the
combined explanation joins only the explanations that are non-empty and
do not start with `Error:` — error text is excluded, and a fixed
placeholder is used when nothing remains. -/
theorem c8_amended :
    (∀ question chunkResults, (∀ r ∈ chunkResults, r.score ≤ 0) →
        (amalgamateChunkResults question chunkResults).score = 0)
    ∧ amalgamateChunkResults "Q"
        [⟨0, 80, "good", []⟩, ⟨1, 0, "Error: x", []⟩, ⟨2, 90, "fine", []⟩]
      = { question := "Q", score := 85, explanation := "good\n\nfine", quotes := [] }
    ∧ amalgamateChunkResults "Q" [⟨0, 0, "Error: x", []⟩]
      = { question := "Q", score := 0,
          explanation := "Unable to generate explanation due to processing errors.",
          quotes := [] } := by
  refine ⟨?_, ?_, ?_⟩
  case refine_2 =>
    have hg : (!decide (("good" : String) = "") && !startsWithLit "Error:" "good") = true := rfl
    have he : (!decide (("Error: x" : String) = "") && !startsWithLit "Error:" "Error: x")
        = false := rfl
    have hf : (!decide (("fine" : String) = "") && !startsWithLit "Error:" "fine") = true := rfl
    norm_num [amalgamateChunkResults, jsRound, List.filter, QuestionResult.mk.injEq,
      hg, he, hf]
    rfl
  case refine_3 =>
    have he : (!decide (("Error: x" : String) = "") && !startsWithLit "Error:" "Error: x")
        = false := rfl
    norm_num [amalgamateChunkResults, jsRound, List.filter, QuestionResult.mk.injEq, he]
  intro question chunkResults h
  have hf : chunkResults.filter (fun r => 0 < r.score) = [] := by
    rw [List.filter_eq_nil_iff]
    intro r hr
    simpa using h r hr
  simp [amalgamateChunkResults, hf]

/-- Witness for C8: a single failed chunk aggregates to score 0. -/
theorem c8_amended_witness :
    (amalgamateChunkResults "W" [⟨0, 0, "Error: z", []⟩]).score = 0 :=
  c8_amended.1 "W" [⟨0, 0, "Error: z", []⟩] (by decide)

/-- C9 counterexample: registering a second subscriber for the same
analysis id overwrites the first registration, and publish then delivers
only to the second callback. -/
theorem c9_counterexample :
    mapGet (subscribeStream (subscribeStream ([] : StreamRegistry) "a" 1) "a" 2) "a" ≠ some 1
    ∧ sendProgressUpdate (subscribeStream (subscribeStream ([] : StreamRegistry) "a" 1) "a" 2) "a"
        = [2]
    ∧ (1 : Nat) ∉
        sendProgressUpdate (subscribeStream (subscribeStream ([] : StreamRegistry) "a" 1) "a" 2)
          "a" := by
  decide

/-- C9 amended: the relay holds at most one subscriber callback per
analysis id; a second registration for the same id replaces the first,
registration for one id leaves every other id unchanged, and publish
delivers the event to at most one callback — the currently registered
one. -/
theorem c9_amended :
    (∀ (m : StreamRegistry) (analysisId : String) (cb1 cb2 : Nat),
        mapGet (subscribeStream (subscribeStream m analysisId cb1) analysisId cb2) analysisId
          = some cb2)
    ∧ (∀ (m : StreamRegistry) (analysisId otherId : String) (cb : Nat), otherId ≠ analysisId →
        mapGet (subscribeStream m analysisId cb) otherId = mapGet m otherId)
    ∧ (∀ (m : StreamRegistry) (analysisId : String),
        (sendProgressUpdate m analysisId).length ≤ 1)
    ∧ (∀ (m : StreamRegistry) (analysisId : String) (cb : Nat),
        sendProgressUpdate (subscribeStream m analysisId cb) analysisId = [cb]) := by
  refine ⟨?_, ?_, ?_, ?_⟩
  · intro m analysisId cb1 cb2
    exact mapGet_mapSet_self _ _ _
  · intro m analysisId otherId cb h
    exact mapGet_mapSet_other m cb h
  · intro m analysisId
    unfold sendProgressUpdate
    cases mapGet m analysisId <;> simp
  · intro m analysisId cb
    unfold sendProgressUpdate subscribeStream
    rw [mapGet_mapSet_self]

/-- Witness for C9: registering for id `"a"` leaves the registration for
id `"b"` unchanged. -/
theorem c9_amended_witness :
    mapGet (subscribeStream [("b", 5)] "a" 7) "b" = mapGet [("b", 5)] "b" :=
  c9_amended.2.1 [("b", 5)] "a" "b" 7 (by decide)

/-- C10: a completed dual-document evaluation stores overall score
exactly 0, whereupon the report endpoint's truthiness guard rejects the
request as not yet complete even though the results are present. -/
theorem c10_dual_report (d1 d2 : List QuestionResult) (elapsed : Nat) :
    (processAnalysisAsync (Except.ok ⟨d1, some d2⟩) elapsed).overallScore = some 0
    ∧ reportEndpoint (some (processAnalysisAsync (Except.ok ⟨d1, some d2⟩) elapsed)) =
        ReportOutcome.notComplete
    ∧ (processAnalysisAsync (Except.ok ⟨d1, some d2⟩) elapsed).results ≠ none := by
  refine ⟨rfl, ?_, by simp [processAnalysisAsync]⟩
  simp [processAnalysisAsync, reportEndpoint, calculateOverallScore, truthyResults, truthyScore]

/-- Oracle for the C6 counterexample and witnesses: phases 1-4 succeed
with scores 60, 61, 37 and 99. -/
def oracleA : Nat → Except String LLMResponse :=
  fun k =>
    Except.ok ⟨if k = 1 then 60 else if k = 2 then 61 else if k = 3 then 37 else 99,
      "resp", []⟩

/-- C6 counterexample: in a comprehensive run whose phase 3 extracted 37,
phase 4 still runs, but no prompt of the run (in particular not the
phase-4 prompt) contains the digit string `37` — the phase-4 prompt
embeds no prior score, contradicting the claim for k = 4. -/
theorem c6_counterexample :
    Except.map
        (fun run => (run.calls.map PhaseCall.phase,
                     run.calls.map (fun c => c.response.score),
                     run.calls.map (fun c => isSubstr ['3', '7'] c.prompt.data)))
        (processDocumentWithProtocol oracleA "doc" AssessmentType.cognitive
          AssessmentMode.comprehensive)
      = Except.ok ([1, 2, 3, 4], [60, 61, 37, 99], [false, false, false, false]) := by
  set_option maxRecDepth 8000 in rfl

/-- C6 amended: in every comprehensive run entering the ladder, the
phase-2 prompt embeds the phase-1 score and the phase-3 prompt embeds the
phase-2 score, but the phase-4 prompt is assembled with no previous score
at all (`buildProtocolPrompt ... 4 none`), independent of every phase
score. -/
theorem c6_amended (oracle : Nat → Except String LLMResponse) (text : String)
    (ty : AssessmentType) (r1 r2 r3 r4 : LLMResponse)
    (h1 : oracle 1 = Except.ok r1) (h2 : oracle 2 = Except.ok r2)
    (h3 : oracle 3 = Except.ok r3) (h4 : oracle 4 = Except.ok r4)
    (hlt : r1.score < 95) :
    ∃ run, processDocumentWithProtocol oracle text ty AssessmentMode.comprehensive =
        Except.ok run ∧
      run.calls.map PhaseCall.phase = [1, 2, 3, 4] ∧
      run.calls.map PhaseCall.prompt =
        [buildProtocolPrompt text ty AssessmentMode.comprehensive 1 none,
         buildProtocolPrompt text ty AssessmentMode.comprehensive 2 (some r1.score),
         buildProtocolPrompt text ty AssessmentMode.comprehensive 3 (some r2.score),
         buildProtocolPrompt text ty AssessmentMode.comprehensive 4 none] ∧
      isSubstr (Nat.repr r1.score).data
          (buildProtocolPrompt text ty AssessmentMode.comprehensive 2 (some r1.score)).data
        = true ∧
      isSubstr (Nat.repr r2.score).data
          (buildProtocolPrompt text ty AssessmentMode.comprehensive 3 (some r2.score)).data
        = true := by
  have hrun : processDocumentWithProtocol oracle text ty AssessmentMode.comprehensive =
      Except.ok
        { finalScore := r4.score,
          finalExplanation :=
            r1.explanation ++ "\n\n--- PHASE 2: PUSHBACK ---\n\n" ++ r2.explanation ++
              "\n\n--- PHASE 3: WALMART METRIC ---\n\n" ++ r3.explanation ++
              "\n\n--- PHASE 4: FINAL VALIDATION ---\n\n" ++ r4.explanation,
          calls :=
            [⟨1, buildProtocolPrompt text ty AssessmentMode.comprehensive 1 none, r1⟩,
             ⟨2, buildProtocolPrompt text ty AssessmentMode.comprehensive 2 (some r1.score), r2⟩,
             ⟨3, buildProtocolPrompt text ty AssessmentMode.comprehensive 3 (some r2.score), r3⟩,
             ⟨4, buildProtocolPrompt text ty AssessmentMode.comprehensive 4 none, r4⟩] } := by
    simp only [processDocumentWithProtocol, h1, h2, h3, h4]
    rw [if_pos]
    first
    | exact hlt
    | exact ⟨by trivial, hlt⟩
  refine ⟨_, hrun, rfl, rfl, ?_, ?_⟩
  · simp only [buildProtocolPrompt, getPhase2Pushback, strData_append, List.append_assoc]
    exact isSubstr_append_left _ (isSubstr_append_left _ (isSubstr_append_left _
      (isSubstr_append_left _ (isSubstr_here _ _ (listPre_self_append _ _)))))
  · simp only [buildProtocolPrompt, getPhase3WalmartMetric, strData_append, List.append_assoc]
    exact isSubstr_append_left _ (isSubstr_append_left _ (isSubstr_append_left _
      (isSubstr_append_left _ (isSubstr_here _ _ (listPre_self_append _ _)))))

/-- Witness for C6 at the concrete oracle with scores 60, 61, 37, 99. -/
theorem c6_amended_witness :
    ∃ run, processDocumentWithProtocol oracleA "doc" AssessmentType.cognitive
        AssessmentMode.comprehensive = Except.ok run ∧
      run.calls.map PhaseCall.phase = [1, 2, 3, 4] ∧
      run.calls.map PhaseCall.prompt =
        [buildProtocolPrompt "doc" AssessmentType.cognitive AssessmentMode.comprehensive 1 none,
         buildProtocolPrompt "doc" AssessmentType.cognitive AssessmentMode.comprehensive 2
           (some 60),
         buildProtocolPrompt "doc" AssessmentType.cognitive AssessmentMode.comprehensive 3
           (some 61),
         buildProtocolPrompt "doc" AssessmentType.cognitive AssessmentMode.comprehensive 4
           none] ∧
      isSubstr (Nat.repr 60).data
          (buildProtocolPrompt "doc" AssessmentType.cognitive AssessmentMode.comprehensive 2
            (some 60)).data = true ∧
      isSubstr (Nat.repr 61).data
          (buildProtocolPrompt "doc" AssessmentType.cognitive AssessmentMode.comprehensive 3
            (some 61)).data = true :=
  c6_amended oracleA "doc" AssessmentType.cognitive ⟨60, "resp", []⟩ ⟨61, "resp", []⟩
    ⟨37, "resp", []⟩ ⟨99, "resp", []⟩ rfl rfl rfl rfl (by decide)

/-! ## The canonical score JSON of claim C2

`mkScoreJson ds E` is the string `{"score": <ds>, "explanation": "<E>"}`
built from a digit run `ds` and a plain explanation text `E`; `dsOk`
states that `ds` is a non-empty digit run without a leading zero (the
JSON grammar's canonical integer form), and `plainLit` that `E` needs no
JSON escaping.  The lemmas below run the embedded `JSON.parse` model over
this family of inputs. -/

/-- A character that may appear unescaped in a JSON string literal:
not a quote, not a backslash, not a control character. -/
def plainChar (c : Char) : Bool := !(c == '"') && !(c == '\\') && decide (32 ≤ c.toNat)

/-- An explanation text that needs no JSON escaping. -/
def plainLit (E : String) : Bool := E.data.all plainChar

/-- A canonical JSON integer digit run: non-empty, all digits, no
leading zero. -/
def dsOk : List Char → Bool
  | [] => false
  | d :: t => !(d == '0') && isDigit d && t.all isDigit

/-- The claim's input family: the JSON text
`\x7b"score": <ds>, "explanation": "<E>"\x7d`. -/
def mkScoreJson (ds : List Char) (E : String) : String :=
  String.mk ('{' :: '"' :: 's' :: 'c' :: 'o' :: 'r' :: 'e' :: '"' :: ':' :: ' ' ::
    (ds ++ (',' :: ' ' :: '"' :: 'e' :: 'x' :: 'p' :: 'l' :: 'a' :: 'n' :: 'a' :: 't' :: 'i' ::
      'o' :: 'n' :: '"' :: ':' :: ' ' :: '"' :: (E.data ++ ['"', '}']))))


theorem strMk_data (s : String) : String.mk s.data = s := by cases s; rfl

theorem digit_ne {d : Char} (h : isDigit d = true) (c : Char) (hc : isDigit c = false) :
    d ≠ c := fun hEq => by subst hEq; rw [h] at hc; cases hc

theorem dropWhile_cons_false {p : Char → Bool} {c : Char} (h : p c = false) (l : List Char) :
    (c :: l).dropWhile p = c :: l := by
  simp [List.dropWhile_cons, h]

theorem jsonWs_digit {d : Char} (h : isDigit d = true) : jsonWs d = false := by
  have h1 := digit_ne h ' ' (by decide)
  have h2 := digit_ne h '\t' (by decide)
  have h3 := digit_ne h '\n' (by decide)
  have h4 := digit_ne h '\x0d' (by decide)
  simp [jsonWs, h1, h2, h3, h4]

-- digitsToNat positivity
theorem foldl_digits_ge (t : List Char) (a : Nat) :
    a ≤ t.foldl (fun x c => 10 * x + (c.toNat - 48)) a := by
  induction t generalizing a with
  | nil => exact Nat.le_refl a
  | cons c t ih =>
    calc a ≤ 10 * a + (c.toNat - 48) := by omega
    _ ≤ _ := ih _

theorem digitsToNat_pos (ds : List Char) (h : dsOk ds = true) : 1 ≤ digitsToNat ds := by
  cases ds with
  | nil => cases h
  | cons d t =>
    simp only [dsOk, Bool.and_eq_true, bne, Bool.not_eq_true'] at h
    obtain ⟨⟨hd0, hdd⟩, _⟩ := h
    have hge : 1 ≤ d.toNat - 48 := by
      simp only [isDigit, Bool.and_eq_true, decide_eq_true_eq] at hdd
      have hne : d ≠ '0' := by
        intro hEq
        rw [hEq] at hd0
        simp at hd0
      have h48 : d.toNat ≠ 48 := by
        intro hn
        have := Char.ofNat_toNat d
        rw [hn] at this
        exact hne this.symm
      omega
    have hfold : digitsToNat (d :: t) =
        List.foldl (fun x c => 10 * x + (c.toNat - 48)) (d.toNat - 48) t := by
      simp [digitsToNat]
    rw [hfold]
    calc 1 ≤ d.toNat - 48 := hge
    _ ≤ _ := foldl_digits_ge t _

theorem takeWhile_all_append (ds rest : List Char) (h : ds.all isDigit = true)
    (hrest : match rest with | [] => True | c :: _ => isDigit c = false) :
    (ds ++ rest).takeWhile isDigit = ds ∧ (ds ++ rest).dropWhile isDigit = rest := by
  induction ds with
  | nil =>
    simp only [List.nil_append]
    cases rest with
    | nil => exact ⟨rfl, rfl⟩
    | cons c cs =>
      constructor
      · simp [List.takeWhile_cons, hrest]
      · simp [List.dropWhile_cons, hrest]
  | cons d t ih =>
    simp only [List.all_cons, Bool.and_eq_true] at h
    obtain ⟨hd, ht⟩ := h
    have := ih ht
    constructor
    · simp [List.takeWhile_cons, hd, this.1]
    · simp [List.dropWhile_cons, hd, this.2]

theorem parseStringBody_plain (l : List Char) (hl : l.all plainChar = true)
    (acc rest : List Char) :
    parseStringBody acc (l ++ '"' :: rest) = some (String.mk (acc.reverse ++ l), rest) := by
  induction l generalizing acc with
  | nil =>
    simp only [List.nil_append, List.append_nil]
    rw [parseStringBody.eq_def]
    simp
  | cons c t ih =>
    simp only [List.all_cons, Bool.and_eq_true] at hl
    obtain ⟨hc, ht⟩ := hl
    simp only [plainChar, Bool.and_eq_true, Bool.not_eq_true', beq_eq_false_iff_ne,
      decide_eq_true_eq] at hc
    obtain ⟨⟨hq, hb⟩, h32⟩ := hc
    simp only [List.cons_append]
    rw [parseStringBody.eq_def]
    simp only []
    rw [if_neg hq, if_neg hb, if_pos h32, ih ht]
    simp

theorem parseFracPart_comma (neg : Bool) (ip : Nat) (rest : List Char) :
    parseFracPart neg ip (',' :: rest) = some (mkJsonNum neg ip [] 0, ',' :: rest) := rfl

theorem mkJsonNum_int (ip : Nat) : mkJsonNum false ip [] 0 = (ip : ℚ) := rfl

theorem parseJsonNumber_digits (ds rest : List Char) (h : dsOk ds = true) :
    parseJsonNumber (ds ++ ',' :: rest) = some ((digitsToNat ds : ℚ), ',' :: rest) := by
  cases ds with
  | nil => cases h
  | cons d t =>
    simp only [dsOk, Bool.and_eq_true, Bool.not_eq_true', beq_eq_false_iff_ne] at h
    obtain ⟨⟨hd0, hdd⟩, ht⟩ := h
    have hsplit := takeWhile_all_append t (',' :: rest) ht rfl
    simp only [List.cons_append, parseJsonNumber]
    rw [if_neg (digit_ne hdd '-' (by decide)), if_neg hd0, if_pos hdd, hsplit.1, hsplit.2,
      parseFracPart_comma, mkJsonNum_int]

theorem parseJsonValue_num (fuel : Nat) (ds rest : List Char) (h : dsOk ds = true) :
    parseJsonValue (fuel + 1) (ds ++ ',' :: rest) =
      some (Json.num (digitsToNat ds), ',' :: rest) := by
  cases ds with
  | nil => cases h
  | cons d t =>
    have hdd : isDigit d = true := by
      cases hq : isDigit d
      · simp [dsOk, hq] at h
      · rfl
    simp only [List.cons_append]
    rw [parseJsonValue]
    rw [if_neg (digit_ne hdd '"' (by decide)), if_neg (digit_ne hdd '{' (by decide)),
      if_neg (digit_ne hdd '[' (by decide)), if_neg (digit_ne hdd 'n' (by decide)),
      if_neg (digit_ne hdd 't' (by decide)), if_neg (digit_ne hdd 'f' (by decide)),
      if_pos (Or.inr hdd)]
    rw [← List.cons_append, parseJsonNumber_digits (d :: t) rest h]
    rfl

theorem parseJsonValue_str (fuel : Nat) (E : String) (rest : List Char)
    (hE : plainLit E = true) :
    parseJsonValue (fuel + 1) ('"' :: (E.data ++ '"' :: rest)) =
      some (Json.str E, rest) := by
  rw [parseJsonValue]
  rw [if_pos rfl, parseStringBody_plain E.data hE [] rest]
  simp [strMk_data]

theorem skipJsonWs_space (l : List Char) : skipJsonWs (' ' :: l) = skipJsonWs l := by
  simp [skipJsonWs, List.dropWhile_cons, jsonWs]

theorem skipJsonWs_cons (c : Char) (l : List Char) (h : jsonWs c = false) :
    skipJsonWs (c :: l) = c :: l := by
  simp [skipJsonWs, List.dropWhile_cons, h]

theorem skipJsonWs_digits (ds rest : List Char) (h : dsOk ds = true) :
    skipJsonWs (ds ++ rest) = ds ++ rest := by
  cases ds with
  | nil => cases h
  | cons d t =>
    have hdd : isDigit d = true := by
      cases hq : isDigit d
      · simp [dsOk, hq] at h
      · rfl
    simp only [List.cons_append]
    exact skipJsonWs_cons d _ (jsonWs_digit hdd)

theorem parseJsonMembers_expl (g : Nat) (E : String) (hE : plainLit E = true) :
    parseJsonMembers (g + 2)
        ('"' :: 'e' :: 'x' :: 'p' :: 'l' :: 'a' :: 'n' :: 'a' :: 't' :: 'i' :: 'o' :: 'n' ::
          '"' :: ':' :: ' ' :: '"' :: (E.data ++ ['"', '}']))
      = some ([("explanation", Json.str E)], []) := by
  rw [parseJsonMembers]
  have hkey : parseStringBody []
      ('e' :: 'x' :: 'p' :: 'l' :: 'a' :: 'n' :: 'a' :: 't' :: 'i' :: 'o' :: 'n' ::
        '"' :: ':' :: ' ' :: '"' :: (E.data ++ ['"', '}']))
      = some ("explanation", ':' :: ' ' :: '"' :: (E.data ++ ['"', '}'])) :=
    parseStringBody_plain "explanation".data (by decide) [] _
  simp only [hkey]
  have h2 : skipJsonWs (':' :: ' ' :: '"' :: (E.data ++ ['"', '}']))
      = ':' :: ' ' :: '"' :: (E.data ++ ['"', '}']) := rfl
  simp only [h2]
  have h3 : skipJsonWs (' ' :: '"' :: (E.data ++ ['"', '}'])) = '"' :: (E.data ++ ['"', '}']) :=
    rfl
  simp only [h3]
  have h4 : parseJsonValue (g + 1) ('"' :: (E.data ++ '"' :: ['}'])) =
      some (Json.str E, ['}']) := parseJsonValue_str g E ['}'] hE
  simp only [h4]
  rfl

theorem parseJsonMembers_score (f : Nat) (ds : List Char) (E : String)
    (hds : dsOk ds = true) (hE : plainLit E = true) :
    parseJsonMembers (f + 3)
        ('"' :: 's' :: 'c' :: 'o' :: 'r' :: 'e' :: '"' :: ':' :: ' ' ::
          (ds ++ (',' :: ' ' :: '"' :: 'e' :: 'x' :: 'p' :: 'l' :: 'a' :: 'n' :: 'a' :: 't' ::
            'i' :: 'o' :: 'n' :: '"' :: ':' :: ' ' :: '"' :: (E.data ++ ['"', '}']))))
      = some ([("score", Json.num (digitsToNat ds)), ("explanation", Json.str E)], []) := by
  rw [parseJsonMembers]
  have hkey : parseStringBody []
      ('s' :: 'c' :: 'o' :: 'r' :: 'e' :: '"' :: ':' :: ' ' ::
        (ds ++ (',' :: ' ' :: '"' :: 'e' :: 'x' :: 'p' :: 'l' :: 'a' :: 'n' :: 'a' :: 't' ::
          'i' :: 'o' :: 'n' :: '"' :: ':' :: ' ' :: '"' :: (E.data ++ ['"', '}']))))
      = some ("score", ':' :: ' ' ::
        (ds ++ (',' :: ' ' :: '"' :: 'e' :: 'x' :: 'p' :: 'l' :: 'a' :: 'n' :: 'a' :: 't' ::
          'i' :: 'o' :: 'n' :: '"' :: ':' :: ' ' :: '"' :: (E.data ++ ['"', '}'])))) :=
    parseStringBody_plain "score".data (by decide) [] _
  simp only [hkey]
  have h2 : skipJsonWs (':' :: ' ' ::
      (ds ++ (',' :: ' ' :: '"' :: 'e' :: 'x' :: 'p' :: 'l' :: 'a' :: 'n' :: 'a' :: 't' ::
        'i' :: 'o' :: 'n' :: '"' :: ':' :: ' ' :: '"' :: (E.data ++ ['"', '}']))))
      = ':' :: ' ' ::
      (ds ++ (',' :: ' ' :: '"' :: 'e' :: 'x' :: 'p' :: 'l' :: 'a' :: 'n' :: 'a' :: 't' ::
        'i' :: 'o' :: 'n' :: '"' :: ':' :: ' ' :: '"' :: (E.data ++ ['"', '}']))) := rfl
  simp only [h2]
  have h3 : skipJsonWs (' ' ::
      (ds ++ (',' :: ' ' :: '"' :: 'e' :: 'x' :: 'p' :: 'l' :: 'a' :: 'n' :: 'a' :: 't' ::
        'i' :: 'o' :: 'n' :: '"' :: ':' :: ' ' :: '"' :: (E.data ++ ['"', '}']))))
      = ds ++ (',' :: ' ' :: '"' :: 'e' :: 'x' :: 'p' :: 'l' :: 'a' :: 'n' :: 'a' :: 't' ::
        'i' :: 'o' :: 'n' :: '"' :: ':' :: ' ' :: '"' :: (E.data ++ ['"', '}'])) := by
    rw [skipJsonWs_space]
    exact skipJsonWs_digits ds _ hds
  simp only [h3]
  have h4 : parseJsonValue (f + 2)
      (ds ++ ',' :: (' ' :: '"' :: 'e' :: 'x' :: 'p' :: 'l' :: 'a' :: 'n' :: 'a' :: 't' ::
        'i' :: 'o' :: 'n' :: '"' :: ':' :: ' ' :: '"' :: (E.data ++ ['"', '}'])))
      = some (Json.num (digitsToNat ds),
          ',' :: (' ' :: '"' :: 'e' :: 'x' :: 'p' :: 'l' :: 'a' :: 'n' :: 'a' :: 't' ::
            'i' :: 'o' :: 'n' :: '"' :: ':' :: ' ' :: '"' :: (E.data ++ ['"', '}']))) :=
    parseJsonValue_num (f + 1) ds _ hds
  simp only [h4]
  have h5 : skipJsonWs (',' :: (' ' :: '"' :: 'e' :: 'x' :: 'p' :: 'l' :: 'a' :: 'n' :: 'a' ::
      't' :: 'i' :: 'o' :: 'n' :: '"' :: ':' :: ' ' :: '"' :: (E.data ++ ['"', '}'])))
      = ',' :: (' ' :: '"' :: 'e' :: 'x' :: 'p' :: 'l' :: 'a' :: 'n' :: 'a' :: 't' :: 'i' ::
        'o' :: 'n' :: '"' :: ':' :: ' ' :: '"' :: (E.data ++ ['"', '}'])) := rfl
  simp only [h5]
  have h6 : skipJsonWs (' ' :: '"' :: 'e' :: 'x' :: 'p' :: 'l' :: 'a' :: 'n' :: 'a' :: 't' ::
      'i' :: 'o' :: 'n' :: '"' :: ':' :: ' ' :: '"' :: (E.data ++ ['"', '}']))
      = '"' :: 'e' :: 'x' :: 'p' :: 'l' :: 'a' :: 'n' :: 'a' :: 't' :: 'i' :: 'o' :: 'n' ::
        '"' :: ':' :: ' ' :: '"' :: (E.data ++ ['"', '}']) := rfl
  simp only [h6]
  rw [parseJsonMembers_expl f E hE]

theorem jsonParse_mkScoreJson (ds : List Char) (E : String)
    (hds : dsOk ds = true) (hE : plainLit E = true) :
    jsonParse (mkScoreJson ds E) =
      some (Json.obj [("score", Json.num (digitsToNat ds)), ("explanation", Json.str E)]) := by
  unfold jsonParse
  have hlen : (mkScoreJson ds E).data.length + 1 = (ds.length + E.data.length + 27) + 4 := by
    simp [mkScoreJson]
    omega
  rw [hlen]
  have hskip0 : skipJsonWs (mkScoreJson ds E).data =
      '{' :: '"' :: 's' :: 'c' :: 'o' :: 'r' :: 'e' :: '"' :: ':' :: ' ' ::
        (ds ++ (',' :: ' ' :: '"' :: 'e' :: 'x' :: 'p' :: 'l' :: 'a' :: 'n' :: 'a' :: 't' ::
          'i' :: 'o' :: 'n' :: '"' :: ':' :: ' ' :: '"' :: (E.data ++ ['"', '}']))) := rfl
  rw [hskip0]
  have hpv : parseJsonValue ((ds.length + E.data.length + 27) + 4)
      ('{' :: '"' :: 's' :: 'c' :: 'o' :: 'r' :: 'e' :: '"' :: ':' :: ' ' ::
        (ds ++ (',' :: ' ' :: '"' :: 'e' :: 'x' :: 'p' :: 'l' :: 'a' :: 'n' :: 'a' :: 't' ::
          'i' :: 'o' :: 'n' :: '"' :: ':' :: ' ' :: '"' :: (E.data ++ ['"', '}']))))
      = some (Json.obj [("score", Json.num (digitsToNat ds)), ("explanation", Json.str E)],
          []) := by
    rw [parseJsonValue]
    rw [if_neg (by decide : ¬ ('{' = '"')), if_pos rfl]
    have hs : skipJsonWs ('"' :: 's' :: 'c' :: 'o' :: 'r' :: 'e' :: '"' :: ':' :: ' ' ::
        (ds ++ (',' :: ' ' :: '"' :: 'e' :: 'x' :: 'p' :: 'l' :: 'a' :: 'n' :: 'a' :: 't' ::
          'i' :: 'o' :: 'n' :: '"' :: ':' :: ' ' :: '"' :: (E.data ++ ['"', '}']))))
        = '"' :: 's' :: 'c' :: 'o' :: 'r' :: 'e' :: '"' :: ':' :: ' ' ::
        (ds ++ (',' :: ' ' :: '"' :: 'e' :: 'x' :: 'p' :: 'l' :: 'a' :: 'n' :: 'a' :: 't' ::
          'i' :: 'o' :: 'n' :: '"' :: ':' :: ' ' :: '"' :: (E.data ++ ['"', '}']))) := rfl
    simp only [hs]
    split
    · next heq => exact absurd heq (by simp)
    · have hm := parseJsonMembers_score (ds.length + E.data.length + 27) ds E hds hE
      have h30 : ds.length + E.data.length + 27 + 3 = ds.length + E.data.length + 30 := by omega
      rw [h30] at hm
      rw [hm]
      rfl
  rw [hpv]
  rfl

theorem trimRight_eq_self (l : List Char)
    (h : ∀ c, l.reverse.head? = some c → jsWsChar c = false) : trimRight l = l := by
  unfold trimRight
  cases hr : l.reverse with
  | nil =>
    have hl : l = [] := by simpa using congrArg List.reverse hr
    simp [hl]
  | cons c tl =>
    have hc : jsWsChar c = false := h c (by rw [hr]; rfl)
    rw [dropWhile_cons_false hc]
    have hl : l = (c :: tl).reverse := by
      have h2 := congrArg List.reverse hr
      simpa using h2
    exact hl.symm

theorem mkScoreJson_reverse_head (ds : List Char) (E : String) :
    (mkScoreJson ds E).data.reverse.head? = some '}' := by
  simp [mkScoreJson, List.reverse_cons, List.reverse_append]

theorem jsTrim_mkScoreJson (ds : List Char) (E : String) :
    jsTrim (mkScoreJson ds E) = mkScoreJson ds E := by
  unfold jsTrim
  have h1 : (mkScoreJson ds E).data.dropWhile jsWsChar = (mkScoreJson ds E).data :=
    dropWhile_cons_false (by decide) _
  rw [h1, trimRight_eq_self]
  intro c hc
  rw [mkScoreJson_reverse_head ds E] at hc
  injection hc with h
  rw [← h]
  rfl

/-- C2 counterexample: on the valid JSON object with score 0 and
explanation `"x"`, `deriveScoreFromAnswer` returns the fallback 70 (the
JavaScript `||` chain discards the falsy score 0), and the response
explanation is the raw JSON text, not `"x"`. -/
theorem c2_counterexample :
    deriveScoreFromAnswer (mkScoreJson ['0'] "x") = 70
    ∧ (70 : ℚ) ≠ 0
    ∧ (deriveResponse (mkScoreJson ['0'] "x")).explanation = mkScoreJson ['0'] "x"
    ∧ mkScoreJson ['0'] "x" ≠ "x" := by
  refine ⟨rfl, by norm_num, rfl, by decide⟩

/-- C2 amended: for every input that is exactly the valid JSON object
`\x7b"score": N, "explanation": E\x7d` with canonical integer N,
1 <= N <= 100 and unescaped E, the extractor returns exactly score N —
while the explanation produced by the surrounding response builder is the
raw (trimmed) JSON text, not the parsed `explanation` field; and for
N = 0 the falsy-zero coalescing makes extraction fall through to the
fallback 70 (see the counterexample). -/
theorem c2_amended (ds : List Char) (E : String) (hds : dsOk ds = true)
    (h100 : digitsToNat ds ≤ 100) (hE : plainLit E = true) :
    deriveScoreFromAnswer (mkScoreJson ds E) = (digitsToNat ds : ℚ)
    ∧ (deriveResponse (mkScoreJson ds E)).explanation = mkScoreJson ds E := by
  have htrim := jsTrim_mkScoreJson ds E
  have hjson := jsonParse_mkScoreJson ds E hds hE
  have hpos := digitsToNat_pos ds hds
  have hne : (digitsToNat ds : ℚ) ≠ 0 := Nat.cast_ne_zero.mpr (by omega)
  have hsf : scoreFromJson (mkScoreJson ds E) = some ((digitsToNat ds : ℚ)) := by
    unfold scoreFromJson
    have hh : strHead (mkScoreJson ds E) = some '{' := rfl
    rw [if_pos (Or.inl hh)]
    simp only [hjson]
    have hgf : jsScoreField (Json.obj [("score", Json.num (digitsToNat ds)),
        ("explanation", Json.str E)]) = some (Json.num (digitsToNat ds)) := by
      unfold jsScoreField getProp getMember
      simp [jsTruthy, hne]
    simp only [hgf]
    rw [if_pos ⟨Nat.cast_nonneg _, by exact_mod_cast h100⟩]
  constructor
  · unfold deriveScoreFromAnswer
    rw [htrim]
    simp only [hsf]
  · unfold deriveResponse
    simp [htrim]
/-- Witness for C2 at score 42 and explanation `"Good essay"`. -/
theorem c2_amended_witness :
    deriveScoreFromAnswer (mkScoreJson ['4', '2'] "Good essay") = ((42 : Nat) : ℚ)
    ∧ (deriveResponse (mkScoreJson ['4', '2'] "Good essay")).explanation
        = mkScoreJson ['4', '2'] "Good essay" :=
  c2_amended ['4', '2'] "Good essay" (by decide) (by decide) (by decide)
